import Mathlib

/-!
Firmata adaptor (`platforms/firmata/firmata_adaptor.go`).

A shallow embedding of the Gobot Firmata adaptor.  The adaptor talks to two
collaborators it only knows through an interface: the protocol client
(`firmataBoard`) and the serial-port opener (`openSP`).  Both are arbitrary
state transformers over a collaborator state `σ`; every call the adaptor makes
to them is appended to a call log, so that "which calls were issued, in which
order" is a statement about a list.
-/

namespace Firmata

/-! ## Go values -/

/-- The sentinel errors of Go's `strconv` package. -/
inductive StrconvErr
  | ErrSyntax
  | ErrRange
  deriving DecidableEq

/-- A Go `error` value: either a `*strconv.NumError` or an error reported by a
collaborator (protocol client, serial port). -/
inductive Error
  | NumError (Func : String) (Num : String) (Err : StrconvErr)
  | Failure (msg : String)
  deriving DecidableEq

/-- An `io.ReadWriteCloser` handle; `Option Conn` is a possibly-nil interface value. -/
abbrev Conn := Nat

/-- Go `int` is 64 bits wide on the platforms modelled here. -/
def maxInt : Int := 2 ^ 63 - 1

/-- Smallest Go `int`. -/
def minInt : Int := -(2 ^ 63)

/-- Two's-complement wrap-around of an integer into the range of Go `int`. -/
def wrapInt (n : Int) : Int := (n + 2 ^ 63) % 2 ^ 64 - 2 ^ 63

/-- Conversion `int(b)` of a `byte` argument. -/
def intOfByte (b : Nat) : Int := ((b % 256 : Nat) : Int)

/-- Conversion `int(u)` of a `uint` argument. -/
def intOfUint (u : Nat) : Int := wrapInt ((u % 2 ^ 64 : Nat) : Int)

/-- How a Go call ends: it returns, it panics (run-time error), or it blocks forever. -/
inductive Outcome (α : Type)
  | ret (a : α)
  | panic (msg : String)
  | blocked
  deriving DecidableEq

/-! ## `strconv.Atoi` -/

/-- Value of a decimal digit byte, `none` for any other byte. -/
def digitVal (c : Char) : Option Nat :=
  if '0' ≤ c ∧ c ≤ '9' then some (c.toNat - '0'.toNat) else none

/-- Largest Go `uint64`. -/
def maxUint64 : Nat := 2 ^ 64 - 1

/-- The digit loop of `strconv.ParseUint(s, 10, 64)`, returning the Go pair
`(uint64, error)` with the error given by its kind: a byte that is no digit
gives `(0, ErrSyntax)`; a digit at which `n * 10` or `n * 10 + d` no longer fits
`uint64` gives `(maxUint64, ErrRange)` at once, without reading further. -/
def parseDigits : Nat → List Char → Nat × Option StrconvErr
  | n, [] => (n, none)
  | n, c :: cs =>
    match digitVal c with
    | none => (0, some StrconvErr.ErrSyntax)
    | some d =>
      if n ≥ maxUint64 / 10 + 1 then (maxUint64, some StrconvErr.ErrRange)
      else if n * 10 + d > maxUint64 then (maxUint64, some StrconvErr.ErrRange)
      else parseDigits (n * 10 + d) cs

/-- The part of `strconv.ParseInt(s, 10, 0)` after the sign: `ds` are the bytes
after the optional sign and `neg` tells whether the sign was `-`.  At least one
digit is required; an error of the digit loop other than `ErrRange` is returned
with value 0; a magnitude outside the `int` range gives `ErrRange` together with
the nearest bound. -/
def parseMagnitude (s : String) (neg : Bool) (ds : List Char) : Int × Option Error :=
  match ds with
  | [] => (0, some (Error.NumError "Atoi" s StrconvErr.ErrSyntax))
  | d :: ds' =>
    match parseDigits 0 (d :: ds') with
    | (_, some StrconvErr.ErrSyntax) =>
      (0, some (Error.NumError "Atoi" s StrconvErr.ErrSyntax))
    | (un, _) =>
      if neg = false ∧ (un : Int) ≥ 2 ^ 63 then
        (maxInt, some (Error.NumError "Atoi" s StrconvErr.ErrRange))
      else if neg = true ∧ (un : Int) > 2 ^ 63 then
        (minInt, some (Error.NumError "Atoi" s StrconvErr.ErrRange))
      else
        (if neg = true then -(un : Int) else (un : Int), none)

/-- Go's `strconv.Atoi(s)`, returning the Go pair `(int, error)`: an optional
sign `+` or `-` followed by decimal digits. -/
def Atoi (s : String) : Int × Option Error :=
  match s.data with
  | [] => (0, some (Error.NumError "Atoi" s StrconvErr.ErrSyntax))
  | c :: cs =>
    if c = '+' then parseMagnitude s false cs
    else if c = '-' then parseMagnitude s true cs
    else parseMagnitude s false (c :: cs)

/-! ## The protocol client seen through its interface -/

/-- A `client.Pin`: the fields the adaptor reads. -/
structure Pin where
  Mode : Int
  Value : Int
  deriving DecidableEq

/-- The constants of package `client` used by the adaptor.  The package is not
part of the adaptor's source file, so the values are a parameter. -/
structure ClientConsts where
  Input : Int
  Output : Int
  Analog : Int
  Pwm : Int
  Servo : Int
  High : Int
  ReportDigital : Nat
  ReportAnalog : Nat
  deriving DecidableEq

/-- The payload published on a `gobot.Event`: a `client.I2cReply` or any other value. -/
inductive EventData
  | I2cReply (Data : List Nat)
  | other (tag : String)
  deriving DecidableEq

/-- One call made by the adaptor to a collaborator, with its arguments. -/
inductive Call
  | openSP (port : String)
  | Connect (conn : Option Conn)
  | Disconnect
  | Pins
  | AnalogWrite (pin : Int) (value : Int)
  | SetPinMode (pin : Int) (mode : Int)
  | TogglePinReporting (pin : Int) (state : Int) (mode : Nat)
  | DigitalWrite (pin : Int) (level : Int)
  | I2cReadRequest (address : Int) (size : Int)
  | I2cWriteRequest (address : Int) (data : List Nat)
  | I2cConfig (data : Int)
  | Event (name : String)
  deriving DecidableEq

/-- The interface `firmataBoard`: every method is an arbitrary transformer of the
collaborator state `σ`.  `Event name` followed by `gobot.Once` and the receive on
the result channel is `awaitOnce`: the payload of the first event fired on that
source after the one-shot handler was registered, or `none` when no event is
ever fired.  `elapse` is not a method: it is what the client's background reader
does to the state while the adaptor waits out its 10 ms settling delay. -/
structure firmataBoard (σ : Type) where
  Connect : Option Conn → σ → Option Error × σ
  Disconnect : σ → Option Error × σ
  Pins : σ → List Pin × σ
  AnalogWrite : Int → Int → σ → Option Error × σ
  SetPinMode : Int → Int → σ → Option Error × σ
  TogglePinReporting : Int → Int → Nat → σ → Option Error × σ
  DigitalWrite : Int → Int → σ → Option Error × σ
  I2cReadRequest : Int → Int → σ → Option Error × σ
  I2cWriteRequest : Int → List Nat → σ → Option Error × σ
  I2cConfig : Int → σ → Option Error × σ
  awaitOnce : String → σ → Option (EventData × σ)
  elapse : σ → σ

/-- The collaborators' state together with the log of calls issued so far. -/
structure World (σ : Type) where
  state : σ
  calls : List Call
  deriving DecidableEq

/-- Record a call and run the collaborator's transformer. -/
def World.call {σ α : Type} (w : World σ) (c : Call) (m : σ → α × σ) : α × World σ :=
  ((m w.state).1, { state := (m w.state).2, calls := w.calls ++ [c] })

/-- The passage of the 10 ms settling delay `<-time.After(10 * time.Millisecond)`:
the collaborators may change state meanwhile, no call is issued. -/
def World.sleep {σ : Type} (w : World σ) (after : σ → σ) : World σ :=
  { state := after w.state, calls := w.calls }

/-- Slice indexing `pins[p]`: out of range (also negative) is a run-time panic. -/
def index (pins : List Pin) (p : Int) : Option Pin :=
  if p < 0 then none else pins.get? p.toNat

/-! ## The adaptor -/

/-- The struct `FirmataAdaptor`.  `board` may be nil; `conn` may be nil. -/
structure FirmataAdaptor (σ : Type) where
  name : String
  port : String
  board : Option (firmataBoard σ)
  i2cAddress : Int
  conn : Option Conn
  openSP : String → σ → (Option Conn × Option Error) × σ

/-- One element of the variadic `args ...interface{}` of the constructor, by dynamic type. -/
inductive Arg
  | string (s : String)
  | rwc (c : Conn)
  | other
  deriving DecidableEq

/-- The `for _, arg := range args` loop of the constructor. -/
def applyArgs {σ : Type} : FirmataAdaptor σ → List Arg → FirmataAdaptor σ
  | f, [] => f
  | f, Arg.string s :: rest => applyArgs { f with port := s } rest
  | f, Arg.rwc c :: rest => applyArgs { f with conn := some c } rest
  | f, Arg.other :: rest => applyArgs f rest

/-- Constructor `NewFirmataAdaptor(name, args...)`; `clientNew` is the value of `client.New()`
and `serialOpenPort` the closure around `serial.OpenPort` at 57600 baud. -/
def NewFirmataAdaptor {σ : Type} (clientNew : firmataBoard σ)
    (serialOpenPort : String → σ → (Option Conn × Option Error) × σ)
    (name : String) (args : List Arg) : FirmataAdaptor σ :=
  applyArgs
    { name := name, port := "", conn := none, board := some clientNew,
      i2cAddress := 0, openSP := serialOpenPort }
    args

/-- Method `Port()`. -/
def FirmataAdaptor.Port {σ : Type} (f : FirmataAdaptor σ) : String := f.port

/-- Method `Name()`. -/
def FirmataAdaptor.Name {σ : Type} (f : FirmataAdaptor σ) : String := f.name

/-- The message of Go's nil-dereference run-time error. -/
def nilDeref : String := "invalid memory address or nil pointer dereference"

/-- The message of Go's index run-time error. -/
def indexOutOfRange : String := "index out of range"

/-- The second statement of `Connect()`: `f.board.Connect(f.conn)`. -/
def connectBoard {σ : Type} (f : FirmataAdaptor σ) (w : World σ) :
    Outcome (List Error) × FirmataAdaptor σ × World σ :=
  match f.board with
  | none => (Outcome.panic nilDeref, f, w)
  | some b =>
    match w.call (Call.Connect f.conn) (b.Connect f.conn) with
    | (some err, w1) => (Outcome.ret [err], f, w1)
    | (none, w1) => (Outcome.ret [], f, w1)

/-- Method `Connect()`: returns the error list and the updated adaptor. -/
def Connect {σ : Type} (f : FirmataAdaptor σ) (w : World σ) :
    Outcome (List Error) × FirmataAdaptor σ × World σ :=
  match f.conn with
  | none =>
    match w.call (Call.openSP f.Port) (f.openSP f.Port) with
    | ((_, some err), w1) => (Outcome.ret [err], f, w1)
    | ((sp, none), w1) => connectBoard { f with conn := sp } w1
  | some _ => connectBoard f w

/-- Method `Disconnect()`. -/
def Disconnect {σ : Type} (f : FirmataAdaptor σ) (w : World σ) :
    Outcome (Option Error) × World σ :=
  match f.board with
  | some b =>
    match w.call Call.Disconnect b.Disconnect with
    | (err, w1) => (Outcome.ret err, w1)
  | none => (Outcome.ret none, w)

/-- Method `Finalize()`. -/
def Finalize {σ : Type} (f : FirmataAdaptor σ) (w : World σ) :
    Outcome (List Error) × World σ :=
  match Disconnect f w with
  | (Outcome.ret (some err), w1) => (Outcome.ret [err], w1)
  | (Outcome.ret none, w1) => (Outcome.ret [], w1)
  | (Outcome.panic msg, w1) => (Outcome.panic msg, w1)
  | (Outcome.blocked, w1) => (Outcome.blocked, w1)

/-- Method `ServoWrite(pin, angle)`. -/
def ServoWrite {σ : Type} (client : ClientConsts) (f : FirmataAdaptor σ)
    (pin : String) (angle : Nat) (w : World σ) : Outcome (Option Error) × World σ :=
  match Atoi pin with
  | (_, some err) => (Outcome.ret (some err), w)
  | (p, none) =>
    match f.board with
    | none => (Outcome.panic nilDeref, w)
    | some b =>
      match w.call Call.Pins b.Pins with
      | (pins, w1) =>
        match index pins p with
        | none => (Outcome.panic indexOutOfRange, w1)
        | some pn =>
          if pn.Mode ≠ client.Servo then
            match w1.call (Call.SetPinMode p client.Servo) (b.SetPinMode p client.Servo) with
            | (some err, w2) => (Outcome.ret (some err), w2)
            | (none, w2) =>
              match w2.call (Call.AnalogWrite p (intOfByte angle))
                  (b.AnalogWrite p (intOfByte angle)) with
              | (err, w3) => (Outcome.ret err, w3)
          else
            match w1.call (Call.AnalogWrite p (intOfByte angle))
                (b.AnalogWrite p (intOfByte angle)) with
            | (err, w3) => (Outcome.ret err, w3)

/-- Method `PwmWrite(pin, level)`. -/
def PwmWrite {σ : Type} (client : ClientConsts) (f : FirmataAdaptor σ)
    (pin : String) (level : Nat) (w : World σ) : Outcome (Option Error) × World σ :=
  match Atoi pin with
  | (_, some err) => (Outcome.ret (some err), w)
  | (p, none) =>
    match f.board with
    | none => (Outcome.panic nilDeref, w)
    | some b =>
      match w.call Call.Pins b.Pins with
      | (pins, w1) =>
        match index pins p with
        | none => (Outcome.panic indexOutOfRange, w1)
        | some pn =>
          if pn.Mode ≠ client.Pwm then
            match w1.call (Call.SetPinMode p client.Pwm) (b.SetPinMode p client.Pwm) with
            | (some err, w2) => (Outcome.ret (some err), w2)
            | (none, w2) =>
              match w2.call (Call.AnalogWrite p (intOfByte level))
                  (b.AnalogWrite p (intOfByte level)) with
              | (err, w3) => (Outcome.ret err, w3)
          else
            match w1.call (Call.AnalogWrite p (intOfByte level))
                (b.AnalogWrite p (intOfByte level)) with
            | (err, w3) => (Outcome.ret err, w3)

/-- Method `DigitalWrite(pin, level)`. -/
def DigitalWrite {σ : Type} (client : ClientConsts) (f : FirmataAdaptor σ)
    (pin : String) (level : Nat) (w : World σ) : Outcome (Option Error) × World σ :=
  match Atoi pin with
  | (_, some err) => (Outcome.ret (some err), w)
  | (p, none) =>
    match f.board with
    | none => (Outcome.panic nilDeref, w)
    | some b =>
      match w.call Call.Pins b.Pins with
      | (pins, w1) =>
        match index pins p with
        | none => (Outcome.panic indexOutOfRange, w1)
        | some pn =>
          if pn.Mode ≠ client.Output then
            match w1.call (Call.SetPinMode p client.Output) (b.SetPinMode p client.Output) with
            | (some err, w2) => (Outcome.ret (some err), w2)
            | (none, w2) =>
              match w2.call (Call.DigitalWrite p (intOfByte level))
                  (b.DigitalWrite p (intOfByte level)) with
              | (err, w3) => (Outcome.ret err, w3)
          else
            match w1.call (Call.DigitalWrite p (intOfByte level))
                (b.DigitalWrite p (intOfByte level)) with
            | (err, w3) => (Outcome.ret err, w3)

/-- The last statement of both reads: `return f.board.Pins()[p].Value, nil`. -/
def readValue {σ : Type} (b : firmataBoard σ) (p : Int) (w : World σ) :
    Outcome (Int × Option Error) × World σ :=
  match w.call Call.Pins b.Pins with
  | (pins, w1) =>
    match index pins p with
    | none => (Outcome.panic indexOutOfRange, w1)
    | some pn => (Outcome.ret (pn.Value, none), w1)

/-- Method `DigitalRead(pin)`, returning the Go pair `(val, err)`. -/
def DigitalRead {σ : Type} (client : ClientConsts) (f : FirmataAdaptor σ)
    (pin : String) (w : World σ) : Outcome (Int × Option Error) × World σ :=
  match Atoi pin with
  | (_, some err) => (Outcome.ret (0, some err), w)
  | (p, none) =>
    match f.board with
    | none => (Outcome.panic nilDeref, w)
    | some b =>
      match w.call Call.Pins b.Pins with
      | (pins, w1) =>
        match index pins p with
        | none => (Outcome.panic indexOutOfRange, w1)
        | some pn =>
          if pn.Mode ≠ client.Input then
            match w1.call (Call.SetPinMode p client.Input) (b.SetPinMode p client.Input) with
            | (some err, w2) => (Outcome.ret (0, some err), w2)
            | (none, w2) =>
              match w2.call (Call.TogglePinReporting p client.High client.ReportDigital)
                  (b.TogglePinReporting p client.High client.ReportDigital) with
              | (some err, w3) => (Outcome.ret (0, some err), w3)
              | (none, w3) => readValue b p (w3.sleep b.elapse)
          else readValue b p w1

/-- Method `digitalPin(pin)`: `pin + 14` in Go `int` arithmetic. -/
def digitalPin (pin : Int) : Int := wrapInt (pin + 14)

/-- Method `AnalogRead(pin)`, returning the Go pair `(val, err)`. -/
def AnalogRead {σ : Type} (client : ClientConsts) (f : FirmataAdaptor σ)
    (pin : String) (w : World σ) : Outcome (Int × Option Error) × World σ :=
  match Atoi pin with
  | (_, some err) => (Outcome.ret (0, some err), w)
  | (p0, none) =>
    let p := digitalPin p0
    match f.board with
    | none => (Outcome.panic nilDeref, w)
    | some b =>
      match w.call Call.Pins b.Pins with
      | (pins, w1) =>
        match index pins p with
        | none => (Outcome.panic indexOutOfRange, w1)
        | some pn =>
          if pn.Mode ≠ client.Analog then
            match w1.call (Call.SetPinMode p client.Analog) (b.SetPinMode p client.Analog) with
            | (some err, w2) => (Outcome.ret (0, some err), w2)
            | (none, w2) =>
              match w2.call (Call.TogglePinReporting p client.High client.ReportAnalog)
                  (b.TogglePinReporting p client.High client.ReportAnalog) with
              | (some err, w3) => (Outcome.ret (0, some err), w3)
              | (none, w3) => readValue b p (w3.sleep b.elapse)
          else readValue b p w1

/-- Method `I2cStart(address)`: returns the error and the updated adaptor. -/
def I2cStart {σ : Type} (f : FirmataAdaptor σ) (address : Nat) (w : World σ) :
    Outcome (Option Error) × FirmataAdaptor σ × World σ :=
  let f1 : FirmataAdaptor σ := { f with i2cAddress := intOfByte address }
  match f1.board with
  | none => (Outcome.panic nilDeref, f1, w)
  | some b =>
    match w.call (Call.I2cConfig 0) (b.I2cConfig 0) with
    | (err, w1) => (Outcome.ret err, f1, w1)

/-- Method `I2cRead(size)`, returning the Go pair `(data, err)`; nil data is `[]`. -/
def I2cRead {σ : Type} (f : FirmataAdaptor σ) (size : Nat) (w : World σ) :
    Outcome (List Nat × Option Error) × World σ :=
  match f.board with
  | none => (Outcome.panic nilDeref, w)
  | some b =>
    match w.call (Call.I2cReadRequest f.i2cAddress (intOfUint size))
        (b.I2cReadRequest f.i2cAddress (intOfUint size)) with
    | (some err, w1) => (Outcome.ret ([], some err), w1)
    | (none, w1) =>
      let w2 : World σ := { state := w1.state, calls := w1.calls ++ [Call.Event "I2cReply"] }
      match b.awaitOnce "I2cReply" w2.state with
      | none => (Outcome.blocked, w2)
      | some (EventData.I2cReply data, s) =>
        (Outcome.ret (data, none), { state := s, calls := w2.calls })
      | some (EventData.other _, s) =>
        (Outcome.panic "interface conversion", { state := s, calls := w2.calls })

/-- Method `I2cWrite(data)`. -/
def I2cWrite {σ : Type} (f : FirmataAdaptor σ) (data : List Nat) (w : World σ) :
    Outcome (Option Error) × World σ :=
  match f.board with
  | none => (Outcome.panic nilDeref, w)
  | some b =>
    match w.call (Call.I2cWriteRequest f.i2cAddress data)
        (b.I2cWriteRequest f.i2cAddress data) with
    | (err, w1) => (Outcome.ret err, w1)

/-! ## A simulated client and opener for the worked scenarios -/

/-- The Firmata protocol's numeric values of the `client` constants. -/
def firmataConsts : ClientConsts :=
  { Input := 0, Output := 1, Analog := 2, Pwm := 3, Servo := 4,
    High := 1, ReportDigital := 0xD0, ReportAnalog := 0xC0 }

/-- State of the simulated collaborators: the pin table, the transport the
client was last connected with, and the number of ports opened so far. -/
structure SimState where
  pins : List Pin
  session : Option Conn
  opened : Nat
  deriving DecidableEq

/-- Set the mode of the pin at position `n`, if there is one. -/
def setModeAt : List Pin → Nat → Int → List Pin
  | [], _, _ => []
  | pn :: rest, 0, m => { pn with Mode := m } :: rest
  | pn :: rest, n + 1, m => pn :: setModeAt rest n m

/-- A simulated call: it reports `fails c` when that is an error and otherwise
succeeds with the given effect on the state. -/
def simCall (fails : Call → Option Error) (c : Call) (effect : SimState → SimState)
    (s : SimState) : Option Error × SimState :=
  match fails c with
  | some err => (some err, s)
  | none => (none, effect s)

/-- A simulated protocol client.  `fails` chooses which calls report an error;
`reply` is the event fired after a one-shot subscription, if any.  A successful
`SetPinMode` is reflected in the pin table. -/
def simBoard (fails : Call → Option Error) (reply : Option EventData) : firmataBoard SimState :=
  { Connect := fun c => simCall fails (Call.Connect c) (fun s => { s with session := c })
    Disconnect := simCall fails Call.Disconnect (fun s => { s with session := none })
    Pins := fun s => (s.pins, s)
    AnalogWrite := fun p v => simCall fails (Call.AnalogWrite p v) id
    SetPinMode := fun p m => simCall fails (Call.SetPinMode p m)
      (fun s => if p < 0 then s else { s with pins := setModeAt s.pins p.toNat m })
    TogglePinReporting := fun p st m => simCall fails (Call.TogglePinReporting p st m) id
    DigitalWrite := fun p v => simCall fails (Call.DigitalWrite p v) id
    I2cReadRequest := fun a n => simCall fails (Call.I2cReadRequest a n) id
    I2cWriteRequest := fun a d => simCall fails (Call.I2cWriteRequest a d) id
    I2cConfig := fun d => simCall fails (Call.I2cConfig d) id
    awaitOnce := fun _ s => reply.map (fun d => (d, s))
    elapse := id }

/-- A simulated opener: it fails with `fail` when that is an error, and otherwise
hands out a transport never handed out before. -/
def simOpen (fail : Option Error) (_port : String) (s : SimState) :
    (Option Conn × Option Error) × SimState :=
  match fail with
  | some err => ((none, some err), s)
  | none => ((some s.opened, none), { s with opened := s.opened + 1 })

/-- No simulated call fails. -/
def noFailure : Call → Option Error := fun _ => none

/-- Exactly the call `c` fails, with error `err`. -/
def failOn (c : Call) (err : Error) : Call → Option Error :=
  fun c' => if c' = c then some err else none

/-- Twenty pins, all in a mode (`7`) that is none of the adaptor's target modes,
pin `i` holding value `100 + i`. -/
def unsetPins : List Pin :=
  (List.range 20).map (fun i => { Mode := 7, Value := 100 + (i : Int) })

/-- The initial simulated world. -/
def simWorld : World SimState :=
  { state := { pins := unsetPins, session := none, opened := 0 }, calls := [] }

/-- An adaptor as the constructor makes it, over the simulated collaborators. -/
def simAdaptor (fails : Call → Option Error) (reply : Option EventData)
    (openFail : Option Error) (args : List Arg) : FirmataAdaptor SimState :=
  NewFirmataAdaptor (simBoard fails reply) (simOpen openFail) "firmata" args

/-- Modelled from the spec: the connect and disconnect routines of the protocol
client made by `client.New()`; package `client` is not among the sources.  The
spec (4.1, 3, 7) says: connect is handed the transport, may report a failure,
and on success leaves a live client session; disconnect closes the session, may
report a failure, is idempotent, and is safe when `Connect` never succeeded, so
without a live session it has nothing to close and reports no error.
`handshake` and `close` say which transports fail to connect or to close. -/
def specClient (handshake : Conn → Option Error) (close : Conn → Option Error) :
    firmataBoard SimState :=
  { simBoard noFailure none with
    Connect := fun c s =>
      match c with
      | none => (some (Error.Failure "no transport"), s)
      | some t =>
        match handshake t with
        | some err => (some err, s)
        | none => (none, { s with session := some t })
    Disconnect := fun s =>
      match s.session with
      | none => (none, s)
      | some t => (close t, { s with session := none }) }

/-! ## Pin modes are set before use -/

/-- The digits after the sign either parse or give a `NumError` naming the label. -/
theorem parseMagnitude_error_cases (s : String) (neg : Bool) (ds : List Char) :
    (parseMagnitude s neg ds).2 = none
      ∨ ∃ k, (parseMagnitude s neg ds).2 = some (Error.NumError "Atoi" s k) := by
  unfold parseMagnitude
  split
  · simp
  · split
    · simp
    · split
      · simp
      · split <;> simp

/-- The parser `Atoi` either succeeds or reports a `NumError` naming `Atoi` and the label. -/
theorem Atoi_error_cases (s : String) :
    (Atoi s).2 = none ∨ ∃ k, (Atoi s).2 = some (Error.NumError "Atoi" s k) := by
  unfold Atoi
  split
  · simp
  · split
    · exact parseMagnitude_error_cases _ _ _
    · split <;> exact parseMagnitude_error_cases _ _ _

/-- Every error of `Atoi` is a `NumError` naming `Atoi` and the offending label. -/
theorem Atoi_error_is_NumError (s : String) (err : Error) (h : (Atoi s).2 = some err) :
    ∃ k, err = Error.NumError "Atoi" s k := by
  rcases Atoi_error_cases s with h0 | ⟨k, hk⟩
  · rw [h0] at h; cases h
  · rw [hk] at h; exact ⟨k, by injection h with h; exact h.symm⟩

/-- C2: when the base-10 parser rejects the pin label with error `err`, each of
the five pin operations returns `err` (a parse error naming the label), a read
returns value 0, and the world is left as it was: no call to the protocol
client is logged, whatever the board, its state and the angle or level.
The labels `abc` and the empty label are rejected. -/
theorem rejected_label_no_client_call {σ : Type} (client : ClientConsts)
    (f : FirmataAdaptor σ) (w : World σ) (pin : String) (v : Nat) (err : Error)
    (h : (Atoi pin).2 = some err) :
    ServoWrite client f pin v w = (Outcome.ret (some err), w)
    ∧ PwmWrite client f pin v w = (Outcome.ret (some err), w)
    ∧ DigitalWrite client f pin v w = (Outcome.ret (some err), w)
    ∧ DigitalRead client f pin w = (Outcome.ret (0, some err), w)
    ∧ AnalogRead client f pin w = (Outcome.ret (0, some err), w)
    ∧ (∃ k, err = Error.NumError "Atoi" pin k)
    ∧ (Atoi "abc").2 = some (Error.NumError "Atoi" "abc" StrconvErr.ErrSyntax)
    ∧ (Atoi "").2 = some (Error.NumError "Atoi" "" StrconvErr.ErrSyntax) := by
  refine ⟨?_, ?_, ?_, ?_, ?_, Atoi_error_is_NumError pin err h, by decide, by decide⟩
  · unfold ServoWrite
    split
    · next e he => rw [he] at h; simp at h; simp [h]
    · next he => rw [he] at h; simp at h
  · unfold PwmWrite
    split
    · next e he => rw [he] at h; simp at h; simp [h]
    · next he => rw [he] at h; simp at h
  · unfold DigitalWrite
    split
    · next e he => rw [he] at h; simp at h; simp [h]
    · next he => rw [he] at h; simp at h
  · unfold DigitalRead
    split
    · next e he => rw [he] at h; simp at h; simp [h]
    · next he => rw [he] at h; simp at h
  · unfold AnalogRead
    split
    · next e he => rw [he] at h; simp at h; simp [h]
    · next he => rw [he] at h; simp at h

/-- A witness of C2: the label `abc` on the simulated client. -/
theorem rejected_label_no_client_call_witness :
    (Atoi "abc").2 = some (Error.NumError "Atoi" "abc" StrconvErr.ErrSyntax)
    ∧ DigitalRead firmataConsts (simAdaptor noFailure none none []) "abc" simWorld
      = (Outcome.ret (0, some (Error.NumError "Atoi" "abc" StrconvErr.ErrSyntax)), simWorld) :=
  ⟨by decide,
    (rejected_label_no_client_call firmataConsts (simAdaptor noFailure none none []) simWorld
      "abc" 0 (Error.NumError "Atoi" "abc" StrconvErr.ErrSyntax) (by decide)).2.2.2.1⟩

/-! ## Labels that denote a negative integer -/

/-- C3, as stated, fails at the label `-1`: it does not parse as a non-negative
integer, yet `Atoi` accepts it as `-1`, so no error is reported; each of the four
operations calls `Pins()` on the client and then panics indexing the pin table. -/
theorem negative_label_counterexample :
    (∀ n : Int, 0 ≤ n → Atoi "-1" ≠ (n, none))
    ∧ Atoi "-1" = (-1, none)
    ∧ ServoWrite firmataConsts (simAdaptor noFailure none none [Arg.rwc 100]) "-1" 90 simWorld
      = (Outcome.panic indexOutOfRange, { simWorld with calls := [Call.Pins] })
    ∧ PwmWrite firmataConsts (simAdaptor noFailure none none [Arg.rwc 100]) "-1" 90 simWorld
      = (Outcome.panic indexOutOfRange, { simWorld with calls := [Call.Pins] })
    ∧ DigitalWrite firmataConsts (simAdaptor noFailure none none [Arg.rwc 100]) "-1" 1 simWorld
      = (Outcome.panic indexOutOfRange, { simWorld with calls := [Call.Pins] })
    ∧ DigitalRead firmataConsts (simAdaptor noFailure none none [Arg.rwc 100]) "-1" simWorld
      = (Outcome.panic indexOutOfRange, { simWorld with calls := [Call.Pins] }) := by
  refine ⟨?_, by decide, by decide, by decide, by decide, by decide⟩
  intro n hn h
  have h1 : Atoi "-1" = (-1, none) := by decide
  rw [h1] at h
  have h2 : (-1 : Int) = n := congrArg Prod.fst h
  omega

/-- C3, amended: for every pin label that does not parse as a base-10 integer
(`Atoi` reports an error), each of `ServoWrite`, `PwmWrite`, `DigitalWrite` and
`DigitalRead` returns that parse error and leaves the world untouched: no call
to the protocol client, hence no pin-table access, and no panic. -/
theorem unparsable_label_no_side_effect {σ : Type} (client : ClientConsts)
    (f : FirmataAdaptor σ) (w : World σ) (pin : String) (v : Nat)
    (h : (Atoi pin).2 ≠ none) :
    ∃ k,
      (Atoi pin).2 = some (Error.NumError "Atoi" pin k)
      ∧ ServoWrite client f pin v w = (Outcome.ret (some (Error.NumError "Atoi" pin k)), w)
      ∧ PwmWrite client f pin v w = (Outcome.ret (some (Error.NumError "Atoi" pin k)), w)
      ∧ DigitalWrite client f pin v w = (Outcome.ret (some (Error.NumError "Atoi" pin k)), w)
      ∧ DigitalRead client f pin w
          = (Outcome.ret (0, some (Error.NumError "Atoi" pin k)), w)
      ∧ (ServoWrite client f pin v w).2.calls = w.calls
      ∧ (PwmWrite client f pin v w).2.calls = w.calls
      ∧ (DigitalWrite client f pin v w).2.calls = w.calls
      ∧ (DigitalRead client f pin w).2.calls = w.calls := by
  rcases Atoi_error_cases pin with h0 | ⟨k, hk⟩
  · exact absurd h0 h
  · have hs : ServoWrite client f pin v w
        = (Outcome.ret (some (Error.NumError "Atoi" pin k)), w) := by
      unfold ServoWrite
      split
      · next e he => rw [he] at hk; simp at hk; simp [hk]
      · next he => rw [he] at hk; simp at hk
    have hpw : PwmWrite client f pin v w
        = (Outcome.ret (some (Error.NumError "Atoi" pin k)), w) := by
      unfold PwmWrite
      split
      · next e he => rw [he] at hk; simp at hk; simp [hk]
      · next he => rw [he] at hk; simp at hk
    have hd : DigitalWrite client f pin v w
        = (Outcome.ret (some (Error.NumError "Atoi" pin k)), w) := by
      unfold DigitalWrite
      split
      · next e he => rw [he] at hk; simp at hk; simp [hk]
      · next he => rw [he] at hk; simp at hk
    have hr : DigitalRead client f pin w
        = (Outcome.ret (0, some (Error.NumError "Atoi" pin k)), w) := by
      unfold DigitalRead
      split
      · next e he => rw [he] at hk; simp at hk; simp [hk]
      · next he => rw [he] at hk; simp at hk
    exact ⟨k, hk, hs, hpw, hd, hr, by rw [hs], by rw [hpw], by rw [hd], by rw [hr]⟩

/-- A witness of the amended C3: the label `1x` with `DigitalWrite`. -/
theorem unparsable_label_no_side_effect_witness :
    (Atoi "1x").2 ≠ none
    ∧ ∃ k, DigitalWrite firmataConsts (simAdaptor noFailure none none []) "1x" 1 simWorld
        = (Outcome.ret (some (Error.NumError "Atoi" "1x" k)), simWorld) :=
  ⟨by decide,
    (unparsable_label_no_side_effect firmataConsts (simAdaptor noFailure none none [])
      simWorld "1x" 1 (by decide)).imp (fun _ hk => hk.2.2.2.1)⟩

/-! ## Analog pins -/

/-- Within the range of Go `int`, `digitalPin` adds 14. -/
theorem digitalPin_eq (a : Int) (h0 : -(2 ^ 63) ≤ a + 14) (h1 : a + 14 ≤ maxInt) :
    digitalPin a = a + 14 := by
  unfold digitalPin wrapInt
  unfold maxInt at h1
  omega

/-- An index inside a table whose length is a Go `int` is itself a Go `int`. -/
theorem index_some_bounds (pins : List Pin) (p : Int) (pn : Pin)
    (h : index pins p = some pn) : 0 ≤ p ∧ p < pins.length := by
  unfold index at h
  split at h
  · cases h
  · next hp =>
    have hlt : p.toNat < pins.length := by
      have := List.get?_eq_some.mp h
      exact this.1
    omega

/-- C4: for a label that parses to analog index `a` with `a + 14` inside the pin
table (whose length, being a Go slice length, is at most the largest `int`),
`AnalogRead` works on digital index `a + 14` only.  If that pin is not in mode
Analog the calls are `Pins`, `SetPinMode(a+14, Analog)`, then (if that succeeded)
`TogglePinReporting(a+14, High, ReportAnalog)`, then (if that succeeded) `Pins`;
if it already is in mode Analog the calls are `Pins, Pins`.  The value returned
is the `Value` of entry `a + 14` of the table read last.  Analog 0 is digital 14
and analog 3 is digital 17. -/
theorem analogRead_uses_digital_index {σ : Type} (client : ClientConsts)
    (f : FirmataAdaptor σ) (b : firmataBoard σ) (w : World σ) (pin : String) (a : Int)
    (pn : Pin)
    (hb : f.board = some b) (hp : Atoi pin = (a, none))
    (hlen : ((b.Pins w.state).1.length : Int) ≤ maxInt)
    (hpn : index (b.Pins w.state).1 (a + 14) = some pn) :
    digitalPin a = a + 14
    ∧ (pn.Mode = client.Analog →
        AnalogRead client f pin w
          = ((match index (b.Pins (b.Pins w.state).2).1 (a + 14) with
              | some pn2 => Outcome.ret (pn2.Value, none)
              | none => Outcome.panic indexOutOfRange),
             { state := (b.Pins (b.Pins w.state).2).2,
               calls := w.calls ++ [Call.Pins, Call.Pins] }))
    ∧ (pn.Mode ≠ client.Analog →
        ∀ e, (b.SetPinMode (a + 14) client.Analog (b.Pins w.state).2).1 = some e →
        AnalogRead client f pin w
          = (Outcome.ret (0, some e),
             { state := (b.SetPinMode (a + 14) client.Analog (b.Pins w.state).2).2,
               calls := w.calls ++ [Call.Pins, Call.SetPinMode (a + 14) client.Analog] }))
    ∧ (pn.Mode ≠ client.Analog →
        (b.SetPinMode (a + 14) client.Analog (b.Pins w.state).2).1 = none →
        ∀ e, (b.TogglePinReporting (a + 14) client.High client.ReportAnalog
              (b.SetPinMode (a + 14) client.Analog (b.Pins w.state).2).2).1 = some e →
        AnalogRead client f pin w
          = (Outcome.ret (0, some e),
             { state := (b.TogglePinReporting (a + 14) client.High client.ReportAnalog
                  (b.SetPinMode (a + 14) client.Analog (b.Pins w.state).2).2).2,
               calls := w.calls ++ [Call.Pins, Call.SetPinMode (a + 14) client.Analog,
                  Call.TogglePinReporting (a + 14) client.High client.ReportAnalog] }))
    ∧ (pn.Mode ≠ client.Analog →
        (b.SetPinMode (a + 14) client.Analog (b.Pins w.state).2).1 = none →
        (b.TogglePinReporting (a + 14) client.High client.ReportAnalog
              (b.SetPinMode (a + 14) client.Analog (b.Pins w.state).2).2).1 = none →
        AnalogRead client f pin w
          = ((match index (b.Pins (b.elapse (b.TogglePinReporting (a + 14) client.High
                      client.ReportAnalog
                      (b.SetPinMode (a + 14) client.Analog (b.Pins w.state).2).2).2)).1
                    (a + 14) with
              | some pn2 => Outcome.ret (pn2.Value, none)
              | none => Outcome.panic indexOutOfRange),
             { state := (b.Pins (b.elapse (b.TogglePinReporting (a + 14) client.High
                      client.ReportAnalog
                      (b.SetPinMode (a + 14) client.Analog (b.Pins w.state).2).2).2)).2,
               calls := w.calls ++ [Call.Pins, Call.SetPinMode (a + 14) client.Analog,
                  Call.TogglePinReporting (a + 14) client.High client.ReportAnalog,
                  Call.Pins] }))
    ∧ digitalPin 0 = 14 ∧ digitalPin 3 = 17 := by
  have hbd := index_some_bounds _ _ _ hpn
  have hd : digitalPin a = a + 14 := by
    apply digitalPin_eq
    · omega
    · omega
  refine ⟨hd, ?_, ?_, ?_, ?_, by decide, by decide⟩
  · intro hm
    simp only [AnalogRead, hp, hb, hd, World.call, hpn, hm, readValue]
    simp only [ne_eq, not_true_eq_false, if_false]
    cases index (b.Pins (b.Pins w.state).2).1 (a + 14) <;> simp
  · intro hm e he
    simp only [AnalogRead, hp, hb, hd, World.call, hpn, if_pos hm, he]
    simp
  · intro hm h1 e he
    simp only [AnalogRead, hp, hb, hd, World.call, hpn, if_pos hm, h1, he]
    simp
  · intro hm h1 h2
    simp only [AnalogRead, hp, hb, hd, World.call, hpn, if_pos hm, h1, h2, readValue,
      World.sleep]
    cases index (b.Pins (b.elapse (b.TogglePinReporting (a + 14) client.High
        client.ReportAnalog
        (b.SetPinMode (a + 14) client.Analog (b.Pins w.state).2).2).2)).1 (a + 14) <;> simp

/-- A witness of C4: `AnalogRead("3")` on the simulated client reads pin 17. -/
theorem analogRead_uses_digital_index_witness :
    Atoi "3" = (3, none)
    ∧ index ((simBoard noFailure none).Pins simWorld.state).1 (3 + 14)
        = some { Mode := 7, Value := 117 }
    ∧ AnalogRead firmataConsts (simAdaptor noFailure none none [Arg.rwc 100]) "3" simWorld
      = (Outcome.ret (117, none),
         { state := { pins := setModeAt unsetPins 17 firmataConsts.Analog, session := none,
                      opened := 0 },
           calls := [Call.Pins, Call.SetPinMode 17 firmataConsts.Analog,
             Call.TogglePinReporting 17 firmataConsts.High firmataConsts.ReportAnalog,
             Call.Pins] }) :=
  ⟨by decide, by decide, by
    have h := (analogRead_uses_digital_index firmataConsts
      (simAdaptor noFailure none none [Arg.rwc 100]) (simBoard noFailure none) simWorld "3" 3
      { Mode := 7, Value := 117 } rfl (by decide) (by decide) (by decide)).2.2.2.2.1
      (by decide) (by decide) (by decide)
    rw [h]
    decide⟩

/-! ## I2C -/

/-- C5: `I2cRead(size)` first issues `I2cReadRequest(i2cAddress, int(size))`.  If
the client reports an error there, that error is returned with no data and the
request is the only call made: the `I2cReply` event is never asked for.  If the
request is accepted and the one-shot subscription to `I2cReply` is then served
an `I2cReply` carrying payload `P`, the call returns `P` and no error. -/
theorem i2cRead_request_then_reply {σ : Type} (f : FirmataAdaptor σ) (b : firmataBoard σ)
    (w : World σ) (size : Nat) (hb : f.board = some b) :
    (∀ e, (b.I2cReadRequest f.i2cAddress (intOfUint size) w.state).1 = some e →
        I2cRead f size w
          = (Outcome.ret ([], some e),
             { state := (b.I2cReadRequest f.i2cAddress (intOfUint size) w.state).2,
               calls := w.calls ++ [Call.I2cReadRequest f.i2cAddress (intOfUint size)] })
        ∧ Call.Event "I2cReply" ∉ (I2cRead f size w).2.calls.drop w.calls.length)
    ∧ (∀ P s, (b.I2cReadRequest f.i2cAddress (intOfUint size) w.state).1 = none →
        b.awaitOnce "I2cReply" (b.I2cReadRequest f.i2cAddress (intOfUint size) w.state).2
          = some (EventData.I2cReply P, s) →
        I2cRead f size w
          = (Outcome.ret (P, none),
             { state := s,
               calls := w.calls ++ [Call.I2cReadRequest f.i2cAddress (intOfUint size),
                 Call.Event "I2cReply"] })) := by
  refine ⟨?_, ?_⟩
  · intro e he
    have h : I2cRead f size w
          = (Outcome.ret ([], some e),
             { state := (b.I2cReadRequest f.i2cAddress (intOfUint size) w.state).2,
               calls := w.calls ++ [Call.I2cReadRequest f.i2cAddress (intOfUint size)] }) := by
      simp only [I2cRead, hb, World.call, he]
    refine ⟨h, ?_⟩
    rw [h]
    simp
  · intro P s h1 h2
    simp only [I2cRead, hb, World.call, h1, h2]
    simp

/-- A witness of C5: a refused read request, and a reply carrying `[100]`. -/
theorem i2cRead_request_then_reply_witness :
    I2cRead (simAdaptor (failOn (Call.I2cReadRequest 0 1) (Error.Failure "nack")) none none [])
        1 simWorld
      = (Outcome.ret ([], some (Error.Failure "nack")),
         { simWorld with calls := [Call.I2cReadRequest 0 1] })
    ∧ I2cRead (simAdaptor noFailure (some (EventData.I2cReply [100])) none []) 1 simWorld
      = (Outcome.ret ([100], none),
         { simWorld with calls := [Call.I2cReadRequest 0 1, Call.Event "I2cReply"] }) :=
  ⟨((i2cRead_request_then_reply
      (simAdaptor (failOn (Call.I2cReadRequest 0 1) (Error.Failure "nack")) none none [])
      (simBoard (failOn (Call.I2cReadRequest 0 1) (Error.Failure "nack")) none)
      simWorld 1 rfl).1 (Error.Failure "nack") (by decide)).1,
   (i2cRead_request_then_reply
      (simAdaptor noFailure (some (EventData.I2cReply [100])) none [])
      (simBoard noFailure (some (EventData.I2cReply [100])))
      simWorld 1 rfl).2 [100] simWorld.state (by decide) (by decide)⟩

/-- With a client, `I2cStart` stores the address and makes the single call
`I2cConfig(0)`, whose result it returns. -/
theorem I2cStart_of_board {σ : Type} (g : FirmataAdaptor σ) (b : firmataBoard σ)
    (w : World σ) (addr : Nat) (hg : g.board = some b) :
    I2cStart g addr w
      = (Outcome.ret (b.I2cConfig 0 w.state).1, { g with i2cAddress := intOfByte addr },
         { state := (b.I2cConfig 0 w.state).2, calls := w.calls ++ [Call.I2cConfig 0] }) := by
  simp only [I2cStart, hg, World.call]

/-- With a client, `I2cWrite` makes the single call `I2cWriteRequest` at the
active address and returns its result. -/
theorem I2cWrite_of_board {σ : Type} (g : FirmataAdaptor σ) (b : firmataBoard σ)
    (w : World σ) (data : List Nat) (hg : g.board = some b) :
    I2cWrite g data w
      = (Outcome.ret (b.I2cWriteRequest g.i2cAddress data w.state).1,
         { state := (b.I2cWriteRequest g.i2cAddress data w.state).2,
           calls := w.calls ++ [Call.I2cWriteRequest g.i2cAddress data] }) := by
  simp only [I2cWrite, hg, World.call]

/-- A refused read request ends `I2cRead` with that error. -/
theorem I2cRead_of_refused {σ : Type} (g : FirmataAdaptor σ) (b : firmataBoard σ)
    (w : World σ) (size : Nat) (e : Error) (hg : g.board = some b)
    (he : (b.I2cReadRequest g.i2cAddress (intOfUint size) w.state).1 = some e) :
    I2cRead g size w
      = (Outcome.ret ([], some e),
         { state := (b.I2cReadRequest g.i2cAddress (intOfUint size) w.state).2,
           calls := w.calls ++ [Call.I2cReadRequest g.i2cAddress (intOfUint size)] }) := by
  simp only [I2cRead, hg, World.call, he]

/-- An accepted read request answered by an `I2cReply` ends `I2cRead` with its data. -/
theorem I2cRead_of_reply {σ : Type} (g : FirmataAdaptor σ) (b : firmataBoard σ)
    (w : World σ) (size : Nat) (P : List Nat) (s : σ) (hg : g.board = some b)
    (h1 : (b.I2cReadRequest g.i2cAddress (intOfUint size) w.state).1 = none)
    (h2 : b.awaitOnce "I2cReply" (b.I2cReadRequest g.i2cAddress (intOfUint size) w.state).2
      = some (EventData.I2cReply P, s)) :
    I2cRead g size w
      = (Outcome.ret (P, none),
         { state := s,
           calls := w.calls ++ [Call.I2cReadRequest g.i2cAddress (intOfUint size),
             Call.Event "I2cReply"] }) := by
  simp only [I2cRead, hg, World.call, h1, h2]
  simp

/-- An accepted read request that is never answered leaves `I2cRead` blocked. -/
theorem I2cRead_of_no_reply {σ : Type} (g : FirmataAdaptor σ) (b : firmataBoard σ)
    (w : World σ) (size : Nat) (hg : g.board = some b)
    (h1 : (b.I2cReadRequest g.i2cAddress (intOfUint size) w.state).1 = none)
    (h2 : b.awaitOnce "I2cReply" (b.I2cReadRequest g.i2cAddress (intOfUint size) w.state).2
      = none) :
    I2cRead g size w
      = (Outcome.blocked,
         { state := (b.I2cReadRequest g.i2cAddress (intOfUint size) w.state).2,
           calls := w.calls ++ [Call.I2cReadRequest g.i2cAddress (intOfUint size),
             Call.Event "I2cReply"] }) := by
  simp only [I2cRead, hg, World.call, h1, h2]
  simp

/-- The calls `I2cRead` logs: its request at the active address, then at most the
subscription to `I2cReply`. -/
theorem I2cRead_calls {σ : Type} (g : FirmataAdaptor σ) (b : firmataBoard σ)
    (w : World σ) (size : Nat) (hg : g.board = some b) :
    ∃ rest, (I2cRead g size w).2.calls
        = w.calls ++ Call.I2cReadRequest g.i2cAddress (intOfUint size) :: rest
      ∧ (rest = [] ∨ rest = [Call.Event "I2cReply"]) := by
  simp only [I2cRead, hg, World.call]
  cases (b.I2cReadRequest g.i2cAddress (intOfUint size) w.state).1 with
  | some e => exact ⟨[], by simp⟩
  | none =>
    refine ⟨[Call.Event "I2cReply"], ?_, Or.inr rfl⟩
    simp only []
    cases b.awaitOnce "I2cReply"
        (b.I2cReadRequest g.i2cAddress (intOfUint size) w.state).2 with
    | none => simp
    | some r =>
      obtain ⟨d, s⟩ := r
      cases d <;> simp

/-- C6: `I2cStart(addr)` sets the active address to `addr` and makes the single
client call `I2cConfig(0)`, returning its result; the address is set whatever
`I2cConfig` returns.  After it, `I2cWrite(data)` hands the client exactly one
`I2cWriteRequest(addr, data)` and returns its result, and `I2cRead` hands the
client its `I2cReadRequest` at `addr`.  After a later `I2cStart(addr2)` both hand
the client requests at `addr2`.  The calls made before stay as they were: the
log only grows at its end, and the client state is threaded through the calls
in the order made. -/
theorem i2cStart_retargets {σ : Type} (f : FirmataAdaptor σ) (b : firmataBoard σ)
    (w : World σ) (addr addr2 : Nat) (data data2 : List Nat) (size : Nat)
    (hb : f.board = some b) :
    I2cStart f addr w
      = (Outcome.ret (b.I2cConfig 0 w.state).1, { f with i2cAddress := intOfByte addr },
         { state := (b.I2cConfig 0 w.state).2, calls := w.calls ++ [Call.I2cConfig 0] })
    ∧ (I2cStart f addr w).1 = Outcome.ret (b.I2cConfig 0 w.state).1
    ∧ (I2cStart f addr w).2.1.i2cAddress = intOfByte addr
    ∧ (addr < 256 → intOfByte addr = (addr : Int))
    ∧ (I2cStart f addr w).2.1.board = some b
    ∧ (I2cStart f addr w).2.2.calls = w.calls ++ [Call.I2cConfig 0]
    ∧ (∀ w1 : World σ,
        I2cWrite (I2cStart f addr w).2.1 data w1
          = (Outcome.ret (b.I2cWriteRequest (intOfByte addr) data w1.state).1,
             { state := (b.I2cWriteRequest (intOfByte addr) data w1.state).2,
               calls := w1.calls ++ [Call.I2cWriteRequest (intOfByte addr) data] }))
    ∧ (∀ (w1 : World σ) e, (b.I2cReadRequest (intOfByte addr) (intOfUint size) w1.state).1 = some e →
        I2cRead (I2cStart f addr w).2.1 size w1
          = (Outcome.ret ([], some e),
             { state := (b.I2cReadRequest (intOfByte addr) (intOfUint size) w1.state).2,
               calls := w1.calls ++ [Call.I2cReadRequest (intOfByte addr) (intOfUint size)] }))
    ∧ (∀ (w1 : World σ) P s, (b.I2cReadRequest (intOfByte addr) (intOfUint size) w1.state).1 = none →
        b.awaitOnce "I2cReply" (b.I2cReadRequest (intOfByte addr) (intOfUint size) w1.state).2 = some (EventData.I2cReply P, s) →
        I2cRead (I2cStart f addr w).2.1 size w1
          = (Outcome.ret (P, none),
             { state := s,
               calls := w1.calls ++ [Call.I2cReadRequest (intOfByte addr) (intOfUint size),
                 Call.Event "I2cReply"] }))
    ∧ (∀ w1 : World σ, (b.I2cReadRequest (intOfByte addr) (intOfUint size) w1.state).1 = none →
        b.awaitOnce "I2cReply" (b.I2cReadRequest (intOfByte addr) (intOfUint size) w1.state).2 = none →
        I2cRead (I2cStart f addr w).2.1 size w1
          = (Outcome.blocked,
             { state := (b.I2cReadRequest (intOfByte addr) (intOfUint size) w1.state).2,
               calls := w1.calls ++ [Call.I2cReadRequest (intOfByte addr) (intOfUint size),
                 Call.Event "I2cReply"] }))
    ∧ (∀ w1 : World σ, ∃ rest,
        (I2cRead (I2cStart f addr w).2.1 size w1).2.calls
          = w1.calls ++ Call.I2cReadRequest (intOfByte addr) (intOfUint size) :: rest
        ∧ (rest = [] ∨ rest = [Call.Event "I2cReply"]))
    ∧ (∀ w2 : World σ,
        (I2cStart (I2cStart f addr w).2.1 addr2 w2).2.1.i2cAddress = intOfByte addr2
        ∧ (I2cStart (I2cStart f addr w).2.1 addr2 w2).2.2
            = { state := (b.I2cConfig 0 w2.state).2, calls := w2.calls ++ [Call.I2cConfig 0] }
        ∧ (∀ w1 : World σ,
            I2cWrite (I2cStart (I2cStart f addr w).2.1 addr2 w2).2.1 data w1
              = (Outcome.ret (b.I2cWriteRequest (intOfByte addr2) data w1.state).1,
                 { state := (b.I2cWriteRequest (intOfByte addr2) data w1.state).2,
                   calls := w1.calls ++ [Call.I2cWriteRequest (intOfByte addr2) data] }))
        ∧ (∀ (w1 : World σ) e, (b.I2cReadRequest (intOfByte addr2) (intOfUint size) w1.state).1 = some e →
            I2cRead (I2cStart (I2cStart f addr w).2.1 addr2 w2).2.1 size w1
              = (Outcome.ret ([], some e),
                 { state := (b.I2cReadRequest (intOfByte addr2) (intOfUint size) w1.state).2,
                   calls := w1.calls ++ [Call.I2cReadRequest (intOfByte addr2) (intOfUint size)] }))
        ∧ (∀ (w1 : World σ) P s, (b.I2cReadRequest (intOfByte addr2) (intOfUint size) w1.state).1 = none →
            b.awaitOnce "I2cReply" (b.I2cReadRequest (intOfByte addr2) (intOfUint size) w1.state).2 = some (EventData.I2cReply P, s) →
            I2cRead (I2cStart (I2cStart f addr w).2.1 addr2 w2).2.1 size w1
              = (Outcome.ret (P, none),
                 { state := s,
                   calls := w1.calls ++ [Call.I2cReadRequest (intOfByte addr2) (intOfUint size),
                     Call.Event "I2cReply"] }))
        ∧ (∀ w1 : World σ, (b.I2cReadRequest (intOfByte addr2) (intOfUint size) w1.state).1 = none →
            b.awaitOnce "I2cReply" (b.I2cReadRequest (intOfByte addr2) (intOfUint size) w1.state).2 = none →
            I2cRead (I2cStart (I2cStart f addr w).2.1 addr2 w2).2.1 size w1
              = (Outcome.blocked,
                 { state := (b.I2cReadRequest (intOfByte addr2) (intOfUint size) w1.state).2,
                   calls := w1.calls ++ [Call.I2cReadRequest (intOfByte addr2) (intOfUint size),
                     Call.Event "I2cReply"] })))
    ∧ I2cWrite
          (I2cStart (I2cStart f addr w).2.1 addr2
            (I2cWrite (I2cStart f addr w).2.1 data (I2cStart f addr w).2.2).2).2.1
          data2
          (I2cStart (I2cStart f addr w).2.1 addr2
            (I2cWrite (I2cStart f addr w).2.1 data (I2cStart f addr w).2.2).2).2.2
        = (Outcome.ret (b.I2cWriteRequest (intOfByte addr2) data2
              (b.I2cConfig 0
                (b.I2cWriteRequest (intOfByte addr) data (b.I2cConfig 0 w.state).2).2).2).1,
           { state := (b.I2cWriteRequest (intOfByte addr2) data2
              (b.I2cConfig 0
                (b.I2cWriteRequest (intOfByte addr) data (b.I2cConfig 0 w.state).2).2).2).2,
             calls := w.calls ++ [Call.I2cConfig 0, Call.I2cWriteRequest (intOfByte addr) data,
               Call.I2cConfig 0, Call.I2cWriteRequest (intOfByte addr2) data2] })
    ∧ (I2cWrite
          (I2cStart (I2cStart f addr w).2.1 addr2
            (I2cWrite (I2cStart f addr w).2.1 data (I2cStart f addr w).2.2).2).2.1
          data2
          (I2cStart (I2cStart f addr w).2.1 addr2
            (I2cWrite (I2cStart f addr w).2.1 data (I2cStart f addr w).2.2).2).2.2).2.calls
        = w.calls ++ [Call.I2cConfig 0, Call.I2cWriteRequest (intOfByte addr) data,
            Call.I2cConfig 0, Call.I2cWriteRequest (intOfByte addr2) data2]
    ∧ (∃ rest,
        (I2cRead
          (I2cStart (I2cStart f addr w).2.1 addr2
            (I2cWrite (I2cStart f addr w).2.1 data (I2cStart f addr w).2.2).2).2.1
          size
          (I2cStart (I2cStart f addr w).2.1 addr2
            (I2cWrite (I2cStart f addr w).2.1 data (I2cStart f addr w).2.2).2).2.2).2.calls
        = w.calls ++ [Call.I2cConfig 0, Call.I2cWriteRequest (intOfByte addr) data,
            Call.I2cConfig 0, Call.I2cReadRequest (intOfByte addr2) (intOfUint size)] ++ rest) := by
  have hs := I2cStart_of_board f b w addr hb
  have hg1 : ({ f with i2cAddress := intOfByte addr } : FirmataAdaptor σ).board = some b := hb
  have hg2 : ∀ a2 : Int,
      ({ ({ f with i2cAddress := intOfByte addr } : FirmataAdaptor σ) with
          i2cAddress := a2 } : FirmataAdaptor σ).board = some b := fun _ => hb
  refine ⟨hs, ?_, ?_, ?_, ?_, ?_, ?_, ?_, ?_, ?_, ?_, ?_, ?_, ?_, ?_⟩
  · rw [hs]
  · rw [hs]
  · intro h
    unfold intOfByte
    rw [Nat.mod_eq_of_lt h]
  · rw [hs]; exact hb
  · rw [hs]
  · intro w1
    rw [hs]
    exact I2cWrite_of_board _ b w1 data hg1
  · intro w1 e he
    rw [hs]
    exact I2cRead_of_refused _ b w1 size e hg1 he
  · intro w1 P s h1 h2
    rw [hs]
    exact I2cRead_of_reply _ b w1 size P s hg1 h1 h2
  · intro w1 h1 h2
    rw [hs]
    exact I2cRead_of_no_reply _ b w1 size hg1 h1 h2
  · intro w1
    rw [hs]
    exact I2cRead_calls _ b w1 size hg1
  · intro w2
    rw [hs]
    have hs2 := I2cStart_of_board ({ f with i2cAddress := intOfByte addr }) b w2 addr2 hg1
    simp only at hs2 ⊢
    rw [hs2]
    refine ⟨rfl, rfl, ?_, ?_, ?_, ?_⟩
    · intro w1
      exact I2cWrite_of_board _ b w1 data (hg2 _)
    · intro w1 e he
      exact I2cRead_of_refused _ b w1 size e (hg2 _) he
    · intro w1 P s h1 h2
      exact I2cRead_of_reply _ b w1 size P s (hg2 _) h1 h2
    · intro w1 h1 h2
      exact I2cRead_of_no_reply _ b w1 size (hg2 _) h1 h2
  · simp [I2cStart, I2cWrite, hb, World.call]
  · simp [I2cStart, I2cWrite, hb, World.call]
  · have h := I2cRead_calls
      (I2cStart (I2cStart f addr w).2.1 addr2
        (I2cWrite (I2cStart f addr w).2.1 data (I2cStart f addr w).2.2).2).2.1 b
      (I2cStart (I2cStart f addr w).2.1 addr2
        (I2cWrite (I2cStart f addr w).2.1 data (I2cStart f addr w).2.2).2).2.2 size
      (by simp [I2cStart, hb, World.call])
    obtain ⟨rest, h1, _⟩ := h
    refine ⟨rest, ?_⟩
    rw [h1]
    simp [I2cStart, I2cWrite, hb, World.call]

/-- A witness of C6 on the simulated client: an `I2cStart` whose `I2cConfig`
fails still sets the address, and a refused `I2cWrite` returns the refusal. -/
theorem i2cStart_retargets_witness :
    (I2cStart (simAdaptor (failOn (Call.I2cConfig 0) (Error.Failure "busy")) none none [])
        0x1E simWorld).1 = Outcome.ret (some (Error.Failure "busy"))
    ∧ (I2cStart (simAdaptor (failOn (Call.I2cConfig 0) (Error.Failure "busy")) none none [])
        0x1E simWorld).2.1.i2cAddress = 0x1E
    ∧ I2cWrite
        (I2cStart
          (simAdaptor (failOn (Call.I2cWriteRequest 0x1E [1, 2]) (Error.Failure "nack")) none
            none [])
          0x1E simWorld).2.1 [1, 2] simWorld
      = (Outcome.ret (some (Error.Failure "nack")),
         { simWorld with calls := [Call.I2cWriteRequest 0x1E [1, 2]] }) :=
  ⟨(i2cStart_retargets
      (simAdaptor (failOn (Call.I2cConfig 0) (Error.Failure "busy")) none none [])
      (simBoard (failOn (Call.I2cConfig 0) (Error.Failure "busy")) none)
      simWorld 0x1E 0x3C [1, 2] [3] 1 rfl).2.1,
   (i2cStart_retargets
      (simAdaptor (failOn (Call.I2cConfig 0) (Error.Failure "busy")) none none [])
      (simBoard (failOn (Call.I2cConfig 0) (Error.Failure "busy")) none)
      simWorld 0x1E 0x3C [1, 2] [3] 1 rfl).2.2.1,
   (i2cStart_retargets
      (simAdaptor (failOn (Call.I2cWriteRequest 0x1E [1, 2]) (Error.Failure "nack")) none
        none [])
      (simBoard (failOn (Call.I2cWriteRequest 0x1E [1, 2]) (Error.Failure "nack")) none)
      simWorld 0x1E 0x3C [1, 2] [3] 1 rfl).2.2.2.2.2.2.1 simWorld⟩

/-! ## Connecting -/

/-- The constructor's loop leaves `board` alone. -/
theorem applyArgs_board {σ : Type} (args : List Arg) (f : FirmataAdaptor σ) :
    (applyArgs f args).board = f.board := by
  induction args generalizing f with
  | nil => rfl
  | cons a rest ih => cases a <;> simp [applyArgs, ih]

/-- The constructor's loop leaves `openSP` alone. -/
theorem applyArgs_openSP {σ : Type} (args : List Arg) (f : FirmataAdaptor σ) :
    (applyArgs f args).openSP = f.openSP := by
  induction args generalizing f with
  | nil => rfl
  | cons a rest ih => cases a <;> simp [applyArgs, ih]

/-- Without a transport among the arguments the loop leaves `conn` alone. -/
theorem applyArgs_conn_of_no_rwc {σ : Type} (args : List Arg) (f : FirmataAdaptor σ)
    (h : ∀ c, Arg.rwc c ∉ args) : (applyArgs f args).conn = f.conn := by
  induction args generalizing f with
  | nil => rfl
  | cons a rest ih =>
    have hrest : ∀ c, Arg.rwc c ∉ rest := fun c hc => h c (List.mem_cons_of_mem _ hc)
    cases a with
    | string s => simp [applyArgs, ih _ hrest]
    | rwc c => exact absurd (List.mem_cons_self _ _) (h c)
    | other => simp [applyArgs, ih _ hrest]

/-- The loop over a concatenation is the loop over the parts. -/
theorem applyArgs_append {σ : Type} (pre post : List Arg) (f : FirmataAdaptor σ) :
    applyArgs f (pre ++ post) = applyArgs (applyArgs f pre) post := by
  induction pre generalizing f with
  | nil => rfl
  | cons a rest ih => cases a <;> simp [applyArgs, ih]

/-- The last transport among the arguments is the one the adaptor holds. -/
theorem applyArgs_conn_of_last_rwc {σ : Type} (pre post : List Arg) (c : Conn)
    (f : FirmataAdaptor σ) (h : ∀ c', Arg.rwc c' ∉ post) :
    (applyArgs f (pre ++ Arg.rwc c :: post)).conn = some c := by
  rw [applyArgs_append]
  simp [applyArgs, applyArgs_conn_of_no_rwc post _ h]

/-- Calling `Connect` on an adaptor that holds a transport hands it to the client and
makes no other call. -/
theorem Connect_of_held_transport {σ : Type} (f : FirmataAdaptor σ) (b : firmataBoard σ)
    (c : Conn) (w : World σ) (hb : f.board = some b) (hc : f.conn = some c) :
    Connect f w
      = (Outcome.ret (b.Connect (some c) w.state).1.toList, f,
         { state := (b.Connect (some c) w.state).2,
           calls := w.calls ++ [Call.Connect (some c)] }) := by
  simp only [Connect, hc, connectBoard, hb, World.call]
  cases (b.Connect (some c) w.state).1 <;> simp

/-- C7: an adaptor constructed with a transport among its arguments holds the
last such transport `c`, and `Connect` on an adaptor holding `c` makes exactly
one call, the client's `Connect(c)`: the opener is not invoked.  An adaptor
constructed without a transport holds none, and `Connect` on an adaptor holding
none whose opener fails with `e` returns `[e]` after the single call to the
opener: the client's `Connect` is not called and the adaptor still holds no
transport. -/
theorem connect_presupplied_or_opener {σ : Type} (clientNew : firmataBoard σ)
    (serialOpenPort : String → σ → (Option Conn × Option Error) × σ) (name : String)
    (w : World σ) :
    (∀ pre post c, (∀ c', Arg.rwc c' ∉ post) →
      (NewFirmataAdaptor clientNew serialOpenPort name (pre ++ Arg.rwc c :: post)).conn = some c
      ∧ Connect (NewFirmataAdaptor clientNew serialOpenPort name (pre ++ Arg.rwc c :: post)) w
        = (Outcome.ret (clientNew.Connect (some c) w.state).1.toList,
           NewFirmataAdaptor clientNew serialOpenPort name (pre ++ Arg.rwc c :: post),
           { state := (clientNew.Connect (some c) w.state).2,
             calls := w.calls ++ [Call.Connect (some c)] }))
    ∧ (∀ (f : FirmataAdaptor σ) b c, f.board = some b → f.conn = some c →
      Connect f w
        = (Outcome.ret (b.Connect (some c) w.state).1.toList, f,
           { state := (b.Connect (some c) w.state).2,
             calls := w.calls ++ [Call.Connect (some c)] }))
    ∧ (∀ args, (∀ c, Arg.rwc c ∉ args) →
      (NewFirmataAdaptor clientNew serialOpenPort name args).conn = none
      ∧ (NewFirmataAdaptor clientNew serialOpenPort name args).openSP = serialOpenPort)
    ∧ (∀ (f : FirmataAdaptor σ) e, f.conn = none →
      (f.openSP f.port w.state).1.2 = some e →
      Connect f w
        = (Outcome.ret [e], f,
           { state := (f.openSP f.port w.state).2,
             calls := w.calls ++ [Call.openSP f.port] })
      ∧ (Connect f w).2.1.conn = none
      ∧ (∀ c, Call.Connect c ∉ (Connect f w).2.2.calls.drop w.calls.length)) := by
  have hpre : ∀ (f : FirmataAdaptor σ) b c, f.board = some b → f.conn = some c →
      Connect f w
        = (Outcome.ret (b.Connect (some c) w.state).1.toList, f,
           { state := (b.Connect (some c) w.state).2,
             calls := w.calls ++ [Call.Connect (some c)] }) := by
    intro f b c hb hc
    exact Connect_of_held_transport f b c w hb hc
  refine ⟨?_, hpre, ?_, ?_⟩
  · intro pre post c hpost
    have hc : (NewFirmataAdaptor clientNew serialOpenPort name
        (pre ++ Arg.rwc c :: post)).conn = some c :=
      applyArgs_conn_of_last_rwc pre post c _ hpost
    have hb : (NewFirmataAdaptor clientNew serialOpenPort name
        (pre ++ Arg.rwc c :: post)).board = some clientNew := by
      simp [NewFirmataAdaptor, applyArgs_board]
    exact ⟨hc, hpre _ clientNew c hb hc⟩
  · intro args hargs
    constructor
    · simp [NewFirmataAdaptor, applyArgs_conn_of_no_rwc args _ hargs]
    · simp [NewFirmataAdaptor, applyArgs_openSP]
  · intro f e hc he
    have h : Connect f w
        = (Outcome.ret [e], f,
           { state := (f.openSP f.port w.state).2,
             calls := w.calls ++ [Call.openSP f.port] }) := by
      simp only [Connect, hc, World.call, FirmataAdaptor.Port]
      rcases hr : f.openSP f.port w.state with ⟨⟨sp, oe⟩, s1⟩
      rw [hr] at he
      simp only at he
      subst he
      rfl
    refine ⟨h, ?_, ?_⟩
    · rw [h]; exact hc
    · intro c
      rw [h]
      simp

/-- A witness of C7 on the simulated collaborators: a supplied transport `100`
is handed to the client without opening a port; a failing opener stops `Connect`. -/
theorem connect_presupplied_or_opener_witness :
    (Connect (simAdaptor noFailure none none [Arg.string "/dev/ttyACM0", Arg.rwc 100])
        simWorld).2.2.calls = [Call.Connect (some 100)]
    ∧ (Connect (simAdaptor noFailure none (some (Error.Failure "no such port"))
          [Arg.string "/dev/ttyACM0"]) simWorld).1
        = Outcome.ret [Error.Failure "no such port"]
    ∧ (Connect (simAdaptor noFailure none (some (Error.Failure "no such port"))
          [Arg.string "/dev/ttyACM0"]) simWorld).2.2.calls
        = [Call.openSP "/dev/ttyACM0"] := by
  refine ⟨?_, ?_, ?_⟩
  · have h := ((connect_presupplied_or_opener (simBoard noFailure none) (simOpen none)
      "firmata" simWorld).1 [Arg.string "/dev/ttyACM0"] [] 100 (by simp)).2
    exact congrArg (fun r => r.2.2.calls) h
  · have h := ((connect_presupplied_or_opener (simBoard noFailure none)
      (simOpen (some (Error.Failure "no such port"))) "firmata" simWorld).2.2.2
      (simAdaptor noFailure none (some (Error.Failure "no such port"))
        [Arg.string "/dev/ttyACM0"]) (Error.Failure "no such port") rfl rfl).1
    exact congrArg (fun r => r.1) h
  · have h := ((connect_presupplied_or_opener (simBoard noFailure none)
      (simOpen (some (Error.Failure "no such port"))) "firmata" simWorld).2.2.2
      (simAdaptor noFailure none (some (Error.Failure "no such port"))
        [Arg.string "/dev/ttyACM0"]) (Error.Failure "no such port") rfl rfl).1
    exact congrArg (fun r => r.2.2.calls) h

/-! ## Failures of the protocol client -/

/-- C8: for a label that parses to `p` inside the pin table.  When the pin is not
in the operation's mode and `SetPinMode` fails with `e`, the operation returns
`e` (a read returns value 0 with it) and `SetPinMode` is the last call made.
When `SetPinMode` succeeds in a read and `TogglePinReporting` fails with `e`,
the read returns value 0 with `e` and no further call is made.  In a write,
whatever the final `AnalogWrite` / `DigitalWrite` reports is returned as is.
Every call appears once in the log: nothing is retried. -/
theorem client_failure_aborts {σ : Type} (client : ClientConsts) (f : FirmataAdaptor σ)
    (b : firmataBoard σ) (w : World σ) (pin : String) (p : Int) (v : Nat)
    (hb : f.board = some b) (hp : Atoi pin = (p, none)) :
    (∀ pn, index (b.Pins w.state).1 p = some pn →
      (pn.Mode ≠ client.Servo → ∀ e,
        (b.SetPinMode p client.Servo (b.Pins w.state).2).1 = some e →
        ServoWrite client f pin v w
          = (Outcome.ret (some e),
             { state := (b.SetPinMode p client.Servo (b.Pins w.state).2).2,
               calls := w.calls ++ [Call.Pins, Call.SetPinMode p client.Servo] }))
      ∧ (pn.Mode ≠ client.Servo →
        (b.SetPinMode p client.Servo (b.Pins w.state).2).1 = none →
        ServoWrite client f pin v w
          = (Outcome.ret (b.AnalogWrite p (intOfByte v)
                (b.SetPinMode p client.Servo (b.Pins w.state).2).2).1,
             { state := (b.AnalogWrite p (intOfByte v)
                (b.SetPinMode p client.Servo (b.Pins w.state).2).2).2,
               calls := w.calls ++ [Call.Pins, Call.SetPinMode p client.Servo,
                 Call.AnalogWrite p (intOfByte v)] }))
      ∧ (pn.Mode = client.Servo →
        ServoWrite client f pin v w
          = (Outcome.ret (b.AnalogWrite p (intOfByte v) (b.Pins w.state).2).1,
             { state := (b.AnalogWrite p (intOfByte v) (b.Pins w.state).2).2,
               calls := w.calls ++ [Call.Pins, Call.AnalogWrite p (intOfByte v)] }))
      ∧
      (pn.Mode ≠ client.Pwm → ∀ e,
        (b.SetPinMode p client.Pwm (b.Pins w.state).2).1 = some e →
        PwmWrite client f pin v w
          = (Outcome.ret (some e),
             { state := (b.SetPinMode p client.Pwm (b.Pins w.state).2).2,
               calls := w.calls ++ [Call.Pins, Call.SetPinMode p client.Pwm] }))
      ∧ (pn.Mode ≠ client.Pwm →
        (b.SetPinMode p client.Pwm (b.Pins w.state).2).1 = none →
        PwmWrite client f pin v w
          = (Outcome.ret (b.AnalogWrite p (intOfByte v)
                (b.SetPinMode p client.Pwm (b.Pins w.state).2).2).1,
             { state := (b.AnalogWrite p (intOfByte v)
                (b.SetPinMode p client.Pwm (b.Pins w.state).2).2).2,
               calls := w.calls ++ [Call.Pins, Call.SetPinMode p client.Pwm,
                 Call.AnalogWrite p (intOfByte v)] }))
      ∧ (pn.Mode = client.Pwm →
        PwmWrite client f pin v w
          = (Outcome.ret (b.AnalogWrite p (intOfByte v) (b.Pins w.state).2).1,
             { state := (b.AnalogWrite p (intOfByte v) (b.Pins w.state).2).2,
               calls := w.calls ++ [Call.Pins, Call.AnalogWrite p (intOfByte v)] }))
      ∧
      (pn.Mode ≠ client.Output → ∀ e,
        (b.SetPinMode p client.Output (b.Pins w.state).2).1 = some e →
        DigitalWrite client f pin v w
          = (Outcome.ret (some e),
             { state := (b.SetPinMode p client.Output (b.Pins w.state).2).2,
               calls := w.calls ++ [Call.Pins, Call.SetPinMode p client.Output] }))
      ∧ (pn.Mode ≠ client.Output →
        (b.SetPinMode p client.Output (b.Pins w.state).2).1 = none →
        DigitalWrite client f pin v w
          = (Outcome.ret (b.DigitalWrite p (intOfByte v)
                (b.SetPinMode p client.Output (b.Pins w.state).2).2).1,
             { state := (b.DigitalWrite p (intOfByte v)
                (b.SetPinMode p client.Output (b.Pins w.state).2).2).2,
               calls := w.calls ++ [Call.Pins, Call.SetPinMode p client.Output,
                 Call.DigitalWrite p (intOfByte v)] }))
      ∧ (pn.Mode = client.Output →
        DigitalWrite client f pin v w
          = (Outcome.ret (b.DigitalWrite p (intOfByte v) (b.Pins w.state).2).1,
             { state := (b.DigitalWrite p (intOfByte v) (b.Pins w.state).2).2,
               calls := w.calls ++ [Call.Pins, Call.DigitalWrite p (intOfByte v)] }))
      ∧
      (pn.Mode ≠ client.Input → ∀ e,
        (b.SetPinMode p client.Input (b.Pins w.state).2).1 = some e →
        DigitalRead client f pin w
          = (Outcome.ret (0, some e),
             { state := (b.SetPinMode p client.Input (b.Pins w.state).2).2,
               calls := w.calls ++ [Call.Pins, Call.SetPinMode p client.Input] }))
      ∧ (pn.Mode ≠ client.Input →
        (b.SetPinMode p client.Input (b.Pins w.state).2).1 = none → ∀ e,
        (b.TogglePinReporting p client.High client.ReportDigital
          (b.SetPinMode p client.Input (b.Pins w.state).2).2).1 = some e →
        DigitalRead client f pin w
          = (Outcome.ret (0, some e),
             { state := (b.TogglePinReporting p client.High client.ReportDigital
                (b.SetPinMode p client.Input (b.Pins w.state).2).2).2,
               calls := w.calls ++ [Call.Pins, Call.SetPinMode p client.Input,
                 Call.TogglePinReporting p client.High client.ReportDigital] })))
    ∧ (∀ pn, index (b.Pins w.state).1 (digitalPin p) = some pn →
      (pn.Mode ≠ client.Analog → ∀ e,
        (b.SetPinMode (digitalPin p) client.Analog (b.Pins w.state).2).1 = some e →
        AnalogRead client f pin w
          = (Outcome.ret (0, some e),
             { state := (b.SetPinMode (digitalPin p) client.Analog (b.Pins w.state).2).2,
               calls := w.calls ++ [Call.Pins, Call.SetPinMode (digitalPin p) client.Analog] }))
      ∧ (pn.Mode ≠ client.Analog →
        (b.SetPinMode (digitalPin p) client.Analog (b.Pins w.state).2).1 = none → ∀ e,
        (b.TogglePinReporting (digitalPin p) client.High client.ReportAnalog
          (b.SetPinMode (digitalPin p) client.Analog (b.Pins w.state).2).2).1 = some e →
        AnalogRead client f pin w
          = (Outcome.ret (0, some e),
             { state := (b.TogglePinReporting (digitalPin p) client.High client.ReportAnalog
                (b.SetPinMode (digitalPin p) client.Analog (b.Pins w.state).2).2).2,
               calls := w.calls ++ [Call.Pins, Call.SetPinMode (digitalPin p) client.Analog,
                 Call.TogglePinReporting (digitalPin p) client.High client.ReportAnalog] }))) := by
  refine ⟨?_, ?_⟩
  · intro pn hpn
    refine ⟨?_, ?_, ?_, ?_, ?_, ?_, ?_, ?_, ?_, ?_, ?_⟩
    · intro hm e he
      simp only [ServoWrite, hp, hb, World.call, hpn, if_pos hm, he]
      simp
    · intro hm he
      simp only [ServoWrite, hp, hb, World.call, hpn, if_pos hm, he]
      simp
    · intro hm
      simp [ServoWrite, hp, hb, World.call, hpn, hm]
    · intro hm e he
      simp only [PwmWrite, hp, hb, World.call, hpn, if_pos hm, he]
      simp
    · intro hm he
      simp only [PwmWrite, hp, hb, World.call, hpn, if_pos hm, he]
      simp
    · intro hm
      simp [PwmWrite, hp, hb, World.call, hpn, hm]
    · intro hm e he
      simp only [DigitalWrite, hp, hb, World.call, hpn, if_pos hm, he]
      simp
    · intro hm he
      simp only [DigitalWrite, hp, hb, World.call, hpn, if_pos hm, he]
      simp
    · intro hm
      simp [DigitalWrite, hp, hb, World.call, hpn, hm]
    · intro hm e he
      simp only [DigitalRead, hp, hb, World.call, hpn, if_pos hm, he]
      simp
    · intro hm h1 e he
      simp only [DigitalRead, hp, hb, World.call, hpn, if_pos hm, h1, he]
      simp
  · intro pn hpn
    refine ⟨?_, ?_⟩
    · intro hm e he
      simp only [AnalogRead, hp, hb, World.call, hpn, if_pos hm, he]
      simp
    · intro hm h1 e he
      simp only [AnalogRead, hp, hb, World.call, hpn, if_pos hm, h1, he]
      simp

/-- A witness of C8: `PwmWrite("9", 128)` with a failing `SetPinMode`, and
`DigitalRead("2")` with a failing `TogglePinReporting`, on the simulated client. -/
theorem client_failure_aborts_witness :
    PwmWrite firmataConsts
        (simAdaptor (failOn (Call.SetPinMode 9 3) (Error.Failure "write failed")) none none [])
        "9" 128 simWorld
      = (Outcome.ret (some (Error.Failure "write failed")),
         { simWorld with calls := [Call.Pins, Call.SetPinMode 9 firmataConsts.Pwm] })
    ∧ (DigitalRead firmataConsts
        (simAdaptor (failOn (Call.TogglePinReporting 2 1 0xD0) (Error.Failure "write failed"))
          none none [])
        "2" simWorld).1
      = Outcome.ret (0, some (Error.Failure "write failed")) := by
  refine ⟨?_, ?_⟩
  · exact ((client_failure_aborts firmataConsts
      (simAdaptor (failOn (Call.SetPinMode 9 3) (Error.Failure "write failed")) none none [])
      (simBoard (failOn (Call.SetPinMode 9 3) (Error.Failure "write failed")) none)
      simWorld "9" 9 128 rfl (by decide)).1 { Mode := 7, Value := 109 } (by decide)).2.2.2.1
      (by decide) (Error.Failure "write failed") (by decide)
  · have h := ((client_failure_aborts firmataConsts
      (simAdaptor (failOn (Call.TogglePinReporting 2 1 0xD0) (Error.Failure "write failed"))
        none none [])
      (simBoard (failOn (Call.TogglePinReporting 2 1 0xD0) (Error.Failure "write failed")) none)
      simWorld "2" 2 0 rfl (by decide)).1 { Mode := 7, Value := 102 }
        (by decide)).2.2.2.2.2.2.2.2.2.2
      (by decide) (by decide) (Error.Failure "write failed") (by decide)
    exact congrArg (fun r => r.1) h

/-! ## Tearing down -/

/-- On an adaptor with a client, `Finalize` makes the single call `Disconnect`
and wraps what it reports into a list. -/
theorem Finalize_of_board {σ : Type} (f : FirmataAdaptor σ) (b : firmataBoard σ)
    (w : World σ) (hb : f.board = some b) :
    Finalize f w
      = (Outcome.ret (b.Disconnect w.state).1.toList,
         { state := (b.Disconnect w.state).2, calls := w.calls ++ [Call.Disconnect] }) := by
  simp only [Finalize, Disconnect, hb, World.call]
  cases (b.Disconnect w.state).1 <;> rfl

/-- The same for an adaptor made by the constructor, whose client is never nil. -/
theorem Finalize_of_constructor {σ : Type} (clientNew : firmataBoard σ)
    (serialOpenPort : String → σ → (Option Conn × Option Error) × σ) (name : String)
    (args : List Arg) (w : World σ) :
    Finalize (NewFirmataAdaptor clientNew serialOpenPort name args) w
      = (Outcome.ret (clientNew.Disconnect w.state).1.toList,
         { state := (clientNew.Disconnect w.state).2,
           calls := w.calls ++ [Call.Disconnect] }) :=
  Finalize_of_board _ clientNew w (by simp [NewFirmataAdaptor, applyArgs_board])

/-- Without a session the spec's client has nothing to disconnect. -/
theorem specClient_Disconnect_no_session (handshake close : Conn → Option Error)
    (s : SimState) (hs : s.session = none) :
    (specClient handshake close).Disconnect s = (none, s) := by
  simp [specClient, hs]

/-- The client's `Connect` does not change the adaptor. -/
theorem connectBoard_adaptor {σ : Type} (g : FirmataAdaptor σ) (w : World σ) :
    (connectBoard g w).2.1 = g := by
  unfold connectBoard
  split
  · rfl
  · split <;> rfl

/-- A `Connect` that reports an error leaves the spec's client without a session. -/
theorem Connect_failure_keeps_no_session (handshake close : Conn → Option Error)
    (openFail : Option Error) (f : FirmataAdaptor SimState) (w : World SimState)
    (hb : f.board = some (specClient handshake close)) (ho : f.openSP = simOpen openFail)
    (hs : w.state.session = none) (errs : List Error)
    (hr : (Connect f w).1 = Outcome.ret errs) (hne : errs ≠ []) :
    (Connect f w).2.2.state.session = none
    ∧ (Connect f w).2.1.board = some (specClient handshake close) := by
  have key : ∀ (g : FirmataAdaptor SimState) (w1 : World SimState),
      g.board = some (specClient handshake close) → w1.state.session = none →
      (connectBoard g w1).1 = Outcome.ret errs →
      (connectBoard g w1).2.2.state.session = none
      ∧ (connectBoard g w1).2.1.board = some (specClient handshake close) := by
    intro g w1 hg hw1 hret
    refine ⟨?_, by rw [connectBoard_adaptor]; exact hg⟩
    simp only [connectBoard, hg, World.call] at hret ⊢
    cases hc : g.conn with
    | none =>
      have h0 : (specClient handshake close).Connect none w1.state
          = (some (Error.Failure "no transport"), w1.state) := rfl
      simp [h0, hw1]
    | some t =>
      rw [hc] at hret
      cases hh : handshake t with
      | some err =>
        have h0 : (specClient handshake close).Connect (some t) w1.state
            = (some err, w1.state) := by simp [specClient, hh]
        simp [h0, hw1]
      | none =>
        have h0 : (specClient handshake close).Connect (some t) w1.state
            = (none, { w1.state with session := some t }) := by simp [specClient, hh]
        rw [h0] at hret
        simp at hret
        exact absurd hret hne
  cases hc : f.conn with
  | some c =>
    have h1 : Connect f w = connectBoard f w := by simp [Connect, hc]
    rw [h1] at hr ⊢
    exact key f w hb hs hr
  | none =>
    cases openFail with
    | some e =>
      simp [Connect, hc, ho, simOpen, World.call, hs, hb]
    | none =>
      have h1 : Connect f w
          = connectBoard { f with conn := some w.state.opened }
              { state := { w.state with opened := w.state.opened + 1 },
                calls := w.calls ++ [Call.openSP f.port] } := by
        simp [Connect, hc, ho, simOpen, World.call, FirmataAdaptor.Port]
      rw [h1] at hr ⊢
      exact key _ _ hb hs hr

/-- C9: against the spec's client, an adaptor made by the constructor on which
`Connect` was never called (the client has no session), or on which `Connect`
reported an error, finalizes with an empty failure list; `Finalize` then made the
single call `Disconnect`.  For any client, `Finalize` on a constructor-made
adaptor returns exactly what the client's `Disconnect` reports, as a list. -/
theorem finalize_never_connected (handshake close : Conn → Option Error)
    (openFail : Option Error) (name : String) (args : List Arg) (w : World SimState)
    (hs : w.state.session = none) :
    Finalize (NewFirmataAdaptor (specClient handshake close) (simOpen openFail) name args) w
      = (Outcome.ret [], { state := w.state, calls := w.calls ++ [Call.Disconnect] })
    ∧ (∀ errs, errs ≠ [] →
        (Connect (NewFirmataAdaptor (specClient handshake close) (simOpen openFail) name args)
          w).1 = Outcome.ret errs →
        (Finalize
          (Connect (NewFirmataAdaptor (specClient handshake close) (simOpen openFail) name args)
            w).2.1
          (Connect (NewFirmataAdaptor (specClient handshake close) (simOpen openFail) name args)
            w).2.2).1 = Outcome.ret [])
    ∧ (∀ (σ : Type) (clientNew : firmataBoard σ)
        (serialOpenPort : String → σ → (Option Conn × Option Error) × σ) (w1 : World σ),
        Finalize (NewFirmataAdaptor clientNew serialOpenPort name args) w1
          = (Outcome.ret (clientNew.Disconnect w1.state).1.toList,
             { state := (clientNew.Disconnect w1.state).2,
               calls := w1.calls ++ [Call.Disconnect] })) := by
  refine ⟨?_, ?_, ?_⟩
  · rw [Finalize_of_constructor, specClient_Disconnect_no_session handshake close _ hs]
    rfl
  · intro errs hne hr
    have hb : (NewFirmataAdaptor (specClient handshake close) (simOpen openFail) name
        args).board = some (specClient handshake close) := by
      simp [NewFirmataAdaptor, applyArgs_board]
    have ho : (NewFirmataAdaptor (specClient handshake close) (simOpen openFail) name
        args).openSP = simOpen openFail := by
      simp [NewFirmataAdaptor, applyArgs_openSP]
    obtain ⟨h1, h2⟩ := Connect_failure_keeps_no_session handshake close openFail _ w hb ho hs
      errs hr hne
    rw [Finalize_of_board _ _ _ h2, specClient_Disconnect_no_session handshake close _ h1]
    rfl
  · intro σ clientNew serialOpenPort w1
    exact Finalize_of_constructor clientNew serialOpenPort name args w1

/-- A witness of C9: a freshly made adaptor, never connected. -/
theorem finalize_never_connected_witness :
    simWorld.state.session = none
    ∧ Finalize (NewFirmataAdaptor (specClient (fun _ => none) (fun _ => none)) (simOpen none)
        "firmata" [Arg.string "/dev/ttyACM0"]) simWorld
      = (Outcome.ret [], { state := simWorld.state, calls := simWorld.calls ++ [Call.Disconnect] }) :=
  ⟨rfl, (finalize_never_connected (fun _ => none) (fun _ => none) none "firmata"
    [Arg.string "/dev/ttyACM0"] simWorld rfl).1⟩

/-! ## Connecting again after a disconnect -/

/-- Calling `Connect` does not change the adaptor's client. -/
theorem Connect_board {σ : Type} (f : FirmataAdaptor σ) (w : World σ) :
    (Connect f w).2.1.board = f.board := by
  unfold Connect
  split
  · split
    · rfl
    · rw [connectBoard_adaptor]
  · rw [connectBoard_adaptor]

/-- C10, as stated, fails on an adaptor constructed without a transport: the
first `Connect` opens transport 0 through the opener; after `Disconnect` the
second `Connect` does not invoke the opener (which would have handed out the
fresh transport 1) and hands the client transport 0 again. -/
theorem reconnect_counterexample :
    (simAdaptor noFailure none none [Arg.string "/dev/ttyACM0"]).conn = none
    ∧ (Connect (simAdaptor noFailure none none [Arg.string "/dev/ttyACM0"]) simWorld).1
        = Outcome.ret []
    ∧ (Connect (simAdaptor noFailure none none [Arg.string "/dev/ttyACM0"])
        simWorld).2.2.calls
        = [Call.openSP "/dev/ttyACM0", Call.Connect (some 0)]
    ∧ (simOpen none "/dev/ttyACM0"
        (Disconnect
          (Connect (simAdaptor noFailure none none [Arg.string "/dev/ttyACM0"]) simWorld).2.1
          (Connect (simAdaptor noFailure none none [Arg.string "/dev/ttyACM0"])
            simWorld).2.2).2.state).1
        = (some 1, none)
    ∧ (Connect
        (Connect (simAdaptor noFailure none none [Arg.string "/dev/ttyACM0"]) simWorld).2.1
        (Disconnect
          (Connect (simAdaptor noFailure none none [Arg.string "/dev/ttyACM0"]) simWorld).2.1
          (Connect (simAdaptor noFailure none none [Arg.string "/dev/ttyACM0"])
            simWorld).2.2).2).2.2.calls
        = [Call.openSP "/dev/ttyACM0", Call.Connect (some 0), Call.Disconnect,
           Call.Connect (some 0)] := by
  refine ⟨by decide, by decide, by decide, by decide, by decide⟩

/-- C10, amended: when the first `Connect` left the adaptor holding transport `c`,
a `Connect` after `Disconnect` makes exactly one call, the client's `Connect(c)`,
and does not invoke the opener.  `c` is the pre-supplied transport if there was
one, and otherwise the transport the opener returned to the first `Connect`. -/
theorem reconnect_reuses_held_transport {σ : Type} (f : FirmataAdaptor σ)
    (b : firmataBoard σ) (w : World σ) (c : Conn)
    (hb : f.board = some b) (hc : (Connect f w).2.1.conn = some c) :
    (Disconnect (Connect f w).2.1 (Connect f w).2.2).2.calls
        = (Connect f w).2.2.calls ++ [Call.Disconnect]
    ∧ Connect (Connect f w).2.1 (Disconnect (Connect f w).2.1 (Connect f w).2.2).2
        = (Outcome.ret (b.Connect (some c)
              (Disconnect (Connect f w).2.1 (Connect f w).2.2).2.state).1.toList,
           (Connect f w).2.1,
           { state := (b.Connect (some c)
              (Disconnect (Connect f w).2.1 (Connect f w).2.2).2.state).2,
             calls := (Connect f w).2.2.calls ++ [Call.Disconnect, Call.Connect (some c)] })
    ∧ (∀ c0, f.conn = some c0 → c0 = c)
    ∧ (f.conn = none → (f.openSP f.port w.state).1 = (some c, none)) := by
  have hb1 : (Connect f w).2.1.board = some b := by rw [Connect_board]; exact hb
  have hd : (Disconnect (Connect f w).2.1 (Connect f w).2.2).2.calls
        = (Connect f w).2.2.calls ++ [Call.Disconnect] := by
    simp [Disconnect, hb1, World.call]
  refine ⟨hd, ?_, ?_, ?_⟩
  · have h := (Connect_of_held_transport (Connect f w).2.1 b c
      (Disconnect (Connect f w).2.1 (Connect f w).2.2).2 hb1 hc)
    rw [h, hd]
    simp
  · intro c0 h0
    have h1 : (Connect f w).2.1 = f := by
      simp only [Connect, h0]
      exact connectBoard_adaptor f w
    rw [h1, h0] at hc
    exact Option.some.inj hc
  · intro h0
    rcases hr : f.openSP f.port w.state with ⟨⟨sp, oe⟩, s1⟩
    cases oe with
    | some e =>
      have h1 : (Connect f w).2.1 = f := by
        simp [Connect, h0, World.call, FirmataAdaptor.Port, hr]
      rw [h1, h0] at hc
      cases hc
    | none =>
      have h1 : (Connect f w).2.1.conn = sp := by
        simp only [Connect, h0, World.call, FirmataAdaptor.Port, hr]
        rw [connectBoard_adaptor]
      rw [h1] at hc
      rw [hc]

/-- A witness of the amended C10: the adaptor constructed without a transport. -/
theorem reconnect_reuses_held_transport_witness :
    (Connect (simAdaptor noFailure none none [Arg.string "/dev/ttyACM0"]) simWorld).2.1.conn
        = some 0
    ∧ (Connect
        (Connect (simAdaptor noFailure none none [Arg.string "/dev/ttyACM0"]) simWorld).2.1
        (Disconnect
          (Connect (simAdaptor noFailure none none [Arg.string "/dev/ttyACM0"]) simWorld).2.1
          (Connect (simAdaptor noFailure none none [Arg.string "/dev/ttyACM0"])
            simWorld).2.2).2).2.2.calls
        = (Connect (simAdaptor noFailure none none [Arg.string "/dev/ttyACM0"])
            simWorld).2.2.calls ++ [Call.Disconnect, Call.Connect (some 0)] :=
  ⟨by decide,
    congrArg (fun r => r.2.2.calls)
      (reconnect_reuses_held_transport
        (simAdaptor noFailure none none [Arg.string "/dev/ttyACM0"])
        (simBoard noFailure none) simWorld 0 rfl (by decide)).2.1⟩

end Firmata
